import Mathlib

/-!
Verification of the Arduboy emulator LVGL display/input layer
(`arduboy_emu_app.c`): the SSD1306 luminance persistence map, the
display scaling geometry, the canvas renderer, and the debounced
key-input state machine.

The C module is embedded shallowly: the global `luma_pixmap` array is a
function `Nat → Nat` (byte values), VRAM is a function
`page → col → byte`, and the imperative loops become `List.foldl` over
`List.range`, with pointer arithmetic made explicit as array indices.
-/

/-- OLED display width in pixels (`OLED_WIDTH`). -/
def OLED_WIDTH : Nat := 128

/-- OLED display height in pixels (`OLED_HEIGHT`). -/
def OLED_HEIGHT : Nat := 64

/-- Canvas buffer capacity in pixels (`MAX_CANVAS_SIZE`),
sized for a maximum scaling factor of 8. -/
def MAX_CANVAS_SIZE : Nat := OLED_WIDTH * OLED_HEIGHT * 8

/-- Number of logical buttons (`BUTTON_COUNT`). -/
def BUTTON_COUNT : Nat := 6

/-- Point update of the luminance array: `m[i] = v`, embedded on functions. -/
def writeCell (m : Nat → Nat) (i v : Nat) : Nat → Nat :=
  fun j => if j = i then v else m j

/-- Clamp of the `int16_t` luminance intermediate back to a byte:
`if (luma < 0) luma = 0; else if (luma > 255) luma = 255;`. -/
def clampLuma (x : Int) : Nat :=
  if x < 0 then 0 else if x > 255 then 255 else x.toNat

/-- One cell's update in `ssd1306_gl_update_lumamap`:
`luma -= luma_decay; if (px_col & 0x1) luma += luma_inc;` then clamp.
`bit` is the current low bit of the shifted VRAM byte. -/
def lumaStep (old d i : Nat) (bit : Bool) : Nat :=
  clampLuma ((old : Int) - (d : Int) + (if bit then (i : Int) else 0))

/-- Body of the innermost (`bit`) loop of `ssd1306_gl_update_lumamap`:
the cell at `column_ptr[bit * OLED_WIDTH]` (i.e. absolute index
`base + bit * OLED_WIDTH`, where `base` is the pointer position for the
current page and column) is rewritten with `lumaStep`; the tested bit of
the VRAM byte `px` is bit `bit`, because the C code shifts `px_col`
right once per iteration and tests `& 0x1`. -/
def colStep (d i base px : Nat) (acc : Nat → Nat) (bit : Nat) : Nat → Nat :=
  writeCell acc (base + bit * OLED_WIDTH)
    (lumaStep (acc (base + bit * OLED_WIDTH)) d i (Nat.testBit px bit))

/-- The `bit` loop (`for (int bit = 0; bit < 8; bit++)`) for one column. -/
def updateColBits (d i base px : Nat) (m : Nat → Nat) : Nat → Nat :=
  (List.range 8).foldl (colStep d i base px) m

/-- The `col` loop for one page. `column_ptr` starts a page at offset
`page * (OLED_WIDTH * 8)`: it advances by 1 per column (`column_ptr++`,
128 times) and by `OLED_WIDTH * 7` at the end of the page, i.e.
`OLED_WIDTH * 8` per page in total, so the pointer position at
(page, col) is `page * (OLED_WIDTH * 8) + col`. -/
def pageStep (vram : Nat → Nat → Nat) (d i : Nat) (acc : Nat → Nat) (page : Nat) : Nat → Nat :=
  (List.range OLED_WIDTH).foldl
    (fun a col => updateColBits d i (page * (OLED_WIDTH * 8) + col) (vram page col) a) acc

/-- `ssd1306_gl_update_lumamap(ssd1306, luma_decay, luma_inc)`: walks
pages 0..7 and columns 0..127 of `vram`, updating `luma_pixmap` (`m`). -/
def ssd1306_gl_update_lumamap (vram : Nat → Nat → Nat) (d i : Nat) (m : Nat → Nat) : Nat → Nat :=
  (List.range (OLED_HEIGHT / 8)).foldl (pageStep vram d i) m


/-! ### Display geometry (`calculate_display_scaling`) -/

/-- The scaling-related fields of `ArduboyLvglContext` set by
`calculate_display_scaling`. All are C `int`, embedded as `Int`. -/
structure DisplayGeometry where
  scale : Int
  offset_x : Int
  offset_y : Int
  canvas_width : Int
  canvas_height : Int
deriving DecidableEq, Repr

/-- The scale factor chosen by `calculate_display_scaling` before the
buffer guard: `min(screen_height / OLED_HEIGHT, screen_width / OLED_WIDTH)`
with C `int` division (truncation toward zero, `Int.tdiv`), then clamped
below by 1 (`if (g_ctx.scale < 1) g_ctx.scale = 1`). -/
def display_scale (screen_width screen_height : Int) : Int :=
  let scale_by_height := Int.tdiv screen_height (OLED_HEIGHT : Int)
  let scale_by_width := Int.tdiv screen_width (OLED_WIDTH : Int)
  let s := if scale_by_height < scale_by_width then scale_by_height else scale_by_width
  if s < 1 then 1 else s

/-- Lines 341-358 of `calculate_display_scaling`: scale, scaled
dimensions, and centered offsets, before the capacity guard. -/
def scaled_geometry (screen_width screen_height : Int) : DisplayGeometry :=
  let scale := display_scale screen_width screen_height
  { scale := scale
    offset_x := Int.tdiv (screen_width - (OLED_WIDTH : Int) * scale) 2
    offset_y := Int.tdiv (screen_height - (OLED_HEIGHT : Int) * scale) 2
    canvas_width := (OLED_WIDTH : Int) * scale
    canvas_height := (OLED_HEIGHT : Int) * scale }

/-- `calculate_display_scaling(screen_width, screen_height)` with the
static-buffer capacity guard: if `canvas_width * canvas_height`
exceeds `MAX_CANVAS_SIZE`, fall back to scale 1 and recompute the
centering for the unscaled 128x64 size. -/
def calculate_display_scaling (screen_width screen_height : Int) : DisplayGeometry :=
  let g := scaled_geometry screen_width screen_height
  let total_pixels := g.canvas_width * g.canvas_height
  if total_pixels > (MAX_CANVAS_SIZE : Int) then
    { scale := 1
      offset_x := Int.tdiv (screen_width - (OLED_WIDTH : Int)) 2
      offset_y := Int.tdiv (screen_height - (OLED_HEIGHT : Int)) 2
      canvas_width := (OLED_WIDTH : Int)
      canvas_height := (OLED_HEIGHT : Int) }
  else g

/-- The scale formula exactly as the spec words it: floor division,
`min` of the two per-axis ratios, clamped to a minimum of 1. -/
def spec_scale (surfaceWidth surfaceHeight : Int) : Int :=
  max 1 (min (Int.fdiv surfaceHeight (OLED_HEIGHT : Int))
             (Int.fdiv surfaceWidth (OLED_WIDTH : Int)))

/-! ### Integrate-call sequences -/

/-- One `ssd1306_gl_update_lumamap` call from the host: a VRAM frame
snapshot and its per-call decay/increment. -/
structure IntegrateCall where
  vram : Nat → Nat → Nat
  luma_decay : Nat
  luma_inc : Nat

/-- A sequence of `ssd1306_gl_update_lumamap` calls applied in order. -/
def runIntegrateCalls (calls : List IntegrateCall) (m : Nat → Nat) : Nat → Nat :=
  calls.foldl (fun acc c => ssd1306_gl_update_lumamap c.vram c.luma_decay c.luma_inc acc) m

/-- The zero-initialized `luma_pixmap` (from `memset(&g_ctx, 0, ...)`). -/
def zeroLumaPixmap : Nat → Nat := fun _ => 0

/-- An all-zero VRAM frame. -/
def zeroVram : Nat → Nat → Nat := fun _ _ => 0

/-! ### Input debouncing state machine -/

/-- LVGL key code `LV_KEY_UP`. -/
def KEY_UP : Nat := 17

/-- LVGL key code `LV_KEY_LEFT`. -/
def KEY_LEFT : Nat := 20

/-- LVGL key code `LV_KEY_DOWN`. -/
def KEY_DOWN : Nat := 18

/-- LVGL key code `LV_KEY_RIGHT`. -/
def KEY_RIGHT : Nat := 19

/-- LVGL key code `LV_KEY_ENTER`. -/
def KEY_ENTER : Nat := 10

/-- LVGL key code `LV_KEY_ESC`. -/
def KEY_ESC : Nat := 27

/-- `key_to_button_e(key)`: translate an LVGL key code (`uint32_t`) to a
button index 0..5, or -1 if not mapped; 122 is the 'z' key (BTN_A
alternate) and 120 the 'x' key (BTN_B alternate). -/
def key_to_button_e (key : Nat) : Int :=
  if key = KEY_UP then 0
  else if key = KEY_DOWN then 1
  else if key = KEY_LEFT then 2
  else if key = KEY_RIGHT then 3
  else if key = KEY_ENTER ∨ key = 122 then 4
  else if key = KEY_ESC ∨ key = 120 then 5
  else -1

/-- Debouncer state: the `key_states[BUTTON_COUNT]` array (as a function,
read at indices 0..5) plus whether `g_release_timer` has been created
(`g_release_timer != NULL`; the timer is never destroyed). -/
structure InputState where
  key_states : Nat → Bool
  timer_created : Bool

/-- Timer operations performed by `lv_arduboy_emu_app_handle_input`:
`lv_timer_create(key_release_timer_cb, 100, NULL)` or
`lv_timer_reset(g_release_timer)`. -/
inductive TimerOp
  | create
  | reset
deriving DecidableEq, Repr

/-- Observable outcome of one `lv_arduboy_emu_app_handle_input` call:
the new state, the `arduboy_avr_button_event(btn, pressed)` calls in
order, and the timer operations performed. -/
structure InputResult where
  state : InputState
  signals : List (Nat × Bool)
  timer_ops : List TimerOp

/-- The state at startup: `key_states` all false, no timer yet. -/
def initialInputState : InputState :=
  { key_states := fun _ => false, timer_created := false }

/-- `lv_arduboy_emu_app_handle_input(key)`. -/
def lv_arduboy_emu_app_handle_input (s : InputState) (key : Nat) : InputResult :=
  let button_index := key_to_button_e key
  if 0 ≤ button_index ∧ button_index < (BUTTON_COUNT : Int) then
    if s.key_states button_index.toNat = false then
      { state :=
          { key_states := fun j => if j = button_index.toNat then true else s.key_states j
            timer_created := true }
        signals := [(button_index.toNat, true)]
        timer_ops := [if s.timer_created then TimerOp.reset else TimerOp.create] }
    else { state := s, signals := [], timer_ops := [] }
  else { state := s, signals := [], timer_ops := [] }

/-- Loop body of `key_release_timer_cb` for button `i`:
`if (key_states[i]) { arduboy_avr_button_event(i, false); key_states[i] = false; }`.
The accumulator carries the state and the emitted signals. -/
def releaseStep (acc : InputState × List (Nat × Bool)) (i : Nat) :
    InputState × List (Nat × Bool) :=
  if acc.1.key_states i then
    ({ key_states := fun j => if j = i then false else acc.1.key_states j
       timer_created := acc.1.timer_created }, acc.2 ++ [(i, false)])
  else acc

/-- `key_release_timer_cb`: walks buttons 0..5 in order; every pressed
button emits `arduboy_avr_button_event(i, false)` and is cleared. -/
def key_release_timer_cb (s : InputState) : InputState × List (Nat × Bool) :=
  (List.range BUTTON_COUNT).foldl releaseStep (s, [])

/-! ### Canvas renderer (`ssd1306_gl_render`) -/

/-- RGB color triple: the embedding of `lv_color_t`. -/
abbrev LvColor := Nat × Nat × Nat

/-- `lv_color_black()`. -/
def lv_color_black : LvColor := (0, 0, 0)

/-- `gray_u8_to_rgb(v)` = `lv_color_make(v, v, v)`. -/
def gray_u8_to_rgb (v : Nat) : LvColor := (v, v, v)

/-- The destination canvas pixel grid, as a function from (x, y). -/
abbrev Surface := Nat → Nat → LvColor

/-- `lv_canvas_set_px(canvas, x, y, color, LV_OPA_COVER)`. -/
def lv_canvas_set_px (surf : Surface) (x y : Nat) (c : LvColor) : Surface :=
  fun a b => if a = x ∧ b = y then c else surf a b

/-- `lv_canvas_fill_bg(canvas, color, LV_OPA_COVER)`. -/
def lv_canvas_fill_bg (c : LvColor) : Surface := fun _ _ => c

/-- The render-relevant fields of the global `g_ctx`: the canvas pointer
(`!= NULL`), the scale, the luminance pixmap and the init flag. -/
structure RenderCtx where
  has_canvas : Bool
  scale : Int
  luma_pixmap : Nat → Nat
  initialized : Bool

/-- `ssd1306_gl_render(ssd1306)`: returns the surface unchanged when the
guard `!g_ctx.initialized || !g_ctx.canvas` fires; otherwise fills the
background black and paints every source pixel as a scale x scale block. -/
def ssd1306_gl_render (ctx : RenderCtx) (surface : Surface) : Surface :=
  if ctx.initialized = false ∨ ctx.has_canvas = false then surface
  else
    let scale := ctx.scale.toNat
    (List.range OLED_HEIGHT).foldl
      (fun accY y =>
        (List.range OLED_WIDTH).foldl
          (fun accX x =>
            let color := gray_u8_to_rgb (ctx.luma_pixmap (y * OLED_WIDTH + x))
            (List.range scale).foldl
              (fun accDy dy =>
                (List.range scale).foldl
                  (fun accDx dx =>
                    lv_canvas_set_px accDx (x * scale + dx) (y * scale + dy) color)
                  accDy)
              accX)
          accY)
      (lv_canvas_fill_bg lv_color_black)

/-! ### Fold locality lemmas -/

theorem clampLuma_le (x : Int) : clampLuma x ≤ 255 := by
  unfold clampLuma
  split
  · omega
  · split
    · omega
    · omega

theorem lumaStep_le (old d i : Nat) (b : Bool) : lumaStep old d i b ≤ 255 :=
  clampLuma_le _

theorem writeCell_ne (m : Nat → Nat) (i v j : Nat) (h : j ≠ i) :
    writeCell m i v j = m j := by
  simp [writeCell, h]

theorem writeCell_eq (m : Nat → Nat) (i v : Nat) :
    writeCell m i v i = v := by
  simp [writeCell]

theorem colStep_fold_untouched (d i base px : Nat) (l : List Nat) (m : Nat → Nat) (j : Nat)
    (h : ∀ b ∈ l, j ≠ base + b * OLED_WIDTH) :
    (l.foldl (colStep d i base px) m) j = m j := by
  induction l generalizing m with
  | nil => rfl
  | cons b bs ih =>
    rw [List.foldl_cons, ih _ (fun b' hb' => h b' (List.mem_cons_of_mem _ hb'))]
    exact writeCell_ne _ _ _ _ (h b (List.mem_cons_self b bs))

theorem range_split (k n : Nat) (h : k < n) :
    List.range n = List.range k ++ k :: List.range' (k + 1) (n - (k + 1)) := by
  have h4 : k :: List.range' (k + 1) (n - (k + 1)) = List.range' k (n - k) := by
    have hnk : n - k = (n - (k + 1)) + 1 := by omega
    rw [hnk, List.range'_succ]
  rw [List.range_eq_range' n, List.range_eq_range' k, h4]
  have h3 := List.range'_append 0 k (n - k) 1
  simp only [Nat.zero_add, Nat.one_mul] at h3
  rw [h3]
  congr 1
  omega

theorem colStep_at (d i base px : Nat) (f : Nat → Nat) (b : Nat) :
    colStep d i base px f b (base + b * OLED_WIDTH)
      = lumaStep (f (base + b * OLED_WIDTH)) d i (Nat.testBit px b) := by
  unfold colStep
  exact writeCell_eq _ _ _

theorem updateColBits_at (d i base px b : Nat) (m : Nat → Nat) (hb : b < 8) :
    updateColBits d i base px m (base + b * OLED_WIDTH)
      = lumaStep (m (base + b * OLED_WIDTH)) d i (Nat.testBit px b) := by
  unfold updateColBits
  rw [range_split b 8 hb, List.foldl_append, List.foldl_cons]
  have hW : 0 < OLED_WIDTH := by decide
  have hpre :
      (List.range b).foldl (colStep d i base px) m (base + b * OLED_WIDTH)
        = m (base + b * OLED_WIDTH) := by
    apply colStep_fold_untouched
    intro b' hb'
    have hlt : b' < b := List.mem_range.mp hb'
    have : b' * OLED_WIDTH < b * OLED_WIDTH := (Nat.mul_lt_mul_right hW).mpr hlt
    omega
  rw [colStep_fold_untouched]
  · rw [colStep_at, hpre]
  · intro b' hb'
    have hmem := List.mem_range'_1.mp hb'
    have : b * OLED_WIDTH < b' * OLED_WIDTH := (Nat.mul_lt_mul_right hW).mpr (by omega)
    omega

theorem updateColBits_untouched (d i base px : Nat) (m : Nat → Nat) (j : Nat)
    (h : ∀ b < 8, j ≠ base + b * OLED_WIDTH) :
    updateColBits d i base px m j = m j := by
  apply colStep_fold_untouched
  intro b hb
  exact h b (List.mem_range.mp hb)

theorem colsFold_untouched (vram : Nat → Nat → Nat) (d i p : Nat) (l : List Nat)
    (acc : Nat → Nat) (j : Nat)
    (h : ∀ c ∈ l, ∀ b < 8, j ≠ p * (OLED_WIDTH * 8) + c + b * OLED_WIDTH) :
    (l.foldl (fun a c => updateColBits d i (p * (OLED_WIDTH * 8) + c) (vram p c) a) acc) j
      = acc j := by
  induction l generalizing acc with
  | nil => rfl
  | cons c cs ih =>
    rw [List.foldl_cons, ih _ (fun c' hc' => h c' (List.mem_cons_of_mem _ hc'))]
    exact updateColBits_untouched _ _ _ _ _ _ (h c (List.mem_cons_self c cs))

theorem pageStep_untouched (vram : Nat → Nat → Nat) (d i : Nat) (acc : Nat → Nat) (p j : Nat)
    (h : ∀ c < 128, ∀ b < 8, j ≠ p * (OLED_WIDTH * 8) + c + b * OLED_WIDTH) :
    pageStep vram d i acc p j = acc j := by
  unfold pageStep
  apply colsFold_untouched
  intro c hc b hb
  refine h c ?_ b hb
  have := List.mem_range.mp hc
  simpa [OLED_WIDTH] using this

theorem pagesFold_untouched (vram : Nat → Nat → Nat) (d i : Nat) (l : List Nat)
    (acc : Nat → Nat) (j : Nat)
    (h : ∀ p ∈ l, ∀ c < 128, ∀ b < 8, j ≠ p * (OLED_WIDTH * 8) + c + b * OLED_WIDTH) :
    (l.foldl (pageStep vram d i) acc) j = acc j := by
  induction l generalizing acc with
  | nil => rfl
  | cons p ps ih =>
    rw [List.foldl_cons, ih _ (fun p' hp' => h p' (List.mem_cons_of_mem _ hp'))]
    exact pageStep_untouched _ _ _ _ _ _ (h p (List.mem_cons_self p ps))

theorem pageStep_at (vram : Nat → Nat → Nat) (d i : Nat) (acc : Nat → Nat)
    (page col bit : Nat) (hp : page < 8) (hc : col < 128) (hb : bit < 8) :
    pageStep vram d i acc page ((page * 8 + bit) * OLED_WIDTH + col)
      = lumaStep (acc ((page * 8 + bit) * OLED_WIDTH + col)) d i
          (Nat.testBit (vram page col) bit) := by
  unfold pageStep
  have hc128 : col < OLED_WIDTH := by simpa [OLED_WIDTH] using hc
  rw [range_split col OLED_WIDTH hc128, List.foldl_append, List.foldl_cons]
  have hlater : ∀ acc2 : Nat → Nat,
      (List.range' (col + 1) (OLED_WIDTH - (col + 1))).foldl
        (fun a c => updateColBits d i (page * (OLED_WIDTH * 8) + c) (vram page c) a) acc2
        ((page * 8 + bit) * OLED_WIDTH + col)
        = acc2 ((page * 8 + bit) * OLED_WIDTH + col) := by
    intro acc2
    apply colsFold_untouched
    intro c hcc b hbb
    have hm := List.mem_range'_1.mp hcc
    simp only [OLED_WIDTH] at *
    omega
  rw [hlater]
  have hjeq : (page * 8 + bit) * OLED_WIDTH + col
      = page * (OLED_WIDTH * 8) + col + bit * OLED_WIDTH := by
    simp only [OLED_WIDTH]
    ring
  rw [hjeq, updateColBits_at _ _ _ _ _ _ hb]
  have hpre :
      ((List.range col).foldl
        (fun a c => updateColBits d i (page * (OLED_WIDTH * 8) + c) (vram page c) a) acc)
        (page * (OLED_WIDTH * 8) + col + bit * OLED_WIDTH)
        = acc (page * (OLED_WIDTH * 8) + col + bit * OLED_WIDTH) := by
    apply colsFold_untouched
    intro c hcc b hbb
    have hm := List.mem_range.mp hcc
    simp only [OLED_WIDTH] at *
    omega
  rw [hpre]

/-- Pointwise characterization of `ssd1306_gl_update_lumamap`: the cell of
pixel (col, page*8+bit) is updated exactly once, from its own old value,
by the decay/increment/clamp step on bit `bit` of the VRAM byte. -/
theorem ssd1306_gl_update_lumamap_cell (vram : Nat → Nat → Nat) (d i : Nat) (m : Nat → Nat)
    (page col bit : Nat) (hp : page < 8) (hc : col < 128) (hb : bit < 8) :
    ssd1306_gl_update_lumamap vram d i m ((page * 8 + bit) * OLED_WIDTH + col)
      = lumaStep (m ((page * 8 + bit) * OLED_WIDTH + col)) d i
          (Nat.testBit (vram page col) bit) := by
  have hOH : OLED_HEIGHT / 8 = 8 := by decide
  unfold ssd1306_gl_update_lumamap
  rw [hOH, range_split page 8 hp, List.foldl_append, List.foldl_cons]
  have hlaterp : ∀ acc2 : Nat → Nat,
      (List.range' (page + 1) (8 - (page + 1))).foldl (pageStep vram d i) acc2
        ((page * 8 + bit) * OLED_WIDTH + col)
        = acc2 ((page * 8 + bit) * OLED_WIDTH + col) := by
    intro acc2
    apply pagesFold_untouched
    intro p hpp c hcc b hbb
    have hm := List.mem_range'_1.mp hpp
    simp only [OLED_WIDTH] at *
    omega
  rw [hlaterp, pageStep_at vram d i _ page col bit hp hc hb]
  have hprep : ((List.range page).foldl (pageStep vram d i) m)
      ((page * 8 + bit) * OLED_WIDTH + col)
      = m ((page * 8 + bit) * OLED_WIDTH + col) := by
    apply pagesFold_untouched
    intro p hpp c hcc b hbb
    have hm := List.mem_range.mp hpp
    simp only [OLED_WIDTH] at *
    omega
  rw [hprep]

theorem tdiv_nonpos_of_neg {a b : Int} (ha : a < 0) (hb : 0 ≤ b) : a.tdiv b ≤ 0 := by
  have h1 : (0 : Int) ≤ -a := by omega
  have h2 : 0 ≤ (-a).tdiv b := Int.tdiv_nonneg h1 hb
  have h3 : (-a).tdiv b = -(a.tdiv b) := Int.neg_tdiv a b
  omega

theorem display_scale_eq_spec (w h : Int) : display_scale w h = spec_scale w h := by
  simp only [display_scale, spec_scale, OLED_WIDTH, OLED_HEIGHT, Nat.cast_ofNat]
  rcases le_or_lt 0 h with hh | hh <;> rcases le_or_lt 0 w with hw | hw
  · rw [Int.tdiv_eq_ediv hh (by decide), Int.tdiv_eq_ediv hw (by decide),
      Int.fdiv_eq_ediv h (by decide), Int.fdiv_eq_ediv w (by decide)]
    rw [max_def, min_def]
    split_ifs <;> omega
  · have h1 : Int.tdiv w (128 : Int) ≤ 0 := tdiv_nonpos_of_neg hw (by decide)
    have h2 : Int.fdiv w (128 : Int) < 0 := Int.fdiv_neg' hw (by decide)
    rw [max_def, min_def]
    split_ifs <;> omega
  · have h1 : Int.tdiv h (64 : Int) ≤ 0 := tdiv_nonpos_of_neg hh (by decide)
    have h2 : Int.fdiv h (64 : Int) < 0 := Int.fdiv_neg' hh (by decide)
    rw [max_def, min_def]
    split_ifs <;> omega
  · have h1 : Int.tdiv h (64 : Int) ≤ 0 := tdiv_nonpos_of_neg hh (by decide)
    have h2 : Int.fdiv h (64 : Int) < 0 := Int.fdiv_neg' hh (by decide)
    rw [max_def, min_def]
    split_ifs <;> omega

theorem display_scale_pos (w h : Int) : 1 ≤ display_scale w h := by
  simp only [display_scale]
  split_ifs <;> omega

/-! ### Per-cell consequences of the lumamap update -/

theorem index_decomp (j : Nat) (hj : j < OLED_WIDTH * OLED_HEIGHT) :
    ∃ page col bit, page < 8 ∧ col < 128 ∧ bit < 8
      ∧ j = (page * 8 + bit) * OLED_WIDTH + col := by
  refine ⟨j / 1024, j % 128, j % 1024 / 128, ?_, ?_, ?_, ?_⟩ <;>
    · simp only [OLED_WIDTH, OLED_HEIGHT] at *
      omega

theorem update_lumamap_bound (vram : Nat → Nat → Nat) (d i : Nat) (m : Nat → Nat) (j : Nat)
    (hj : j < OLED_WIDTH * OLED_HEIGHT) :
    ssd1306_gl_update_lumamap vram d i m j ≤ 255 := by
  obtain ⟨p, c, b, hp, hc, hb, rfl⟩ := index_decomp j hj
  rw [ssd1306_gl_update_lumamap_cell vram d i m p c b hp hc hb]
  exact lumaStep_le _ _ _ _

theorem runIntegrateCalls_bound (calls : List IntegrateCall) (m : Nat → Nat)
    (hm : ∀ j, j < OLED_WIDTH * OLED_HEIGHT → m j ≤ 255) :
    ∀ j, j < OLED_WIDTH * OLED_HEIGHT → runIntegrateCalls calls m j ≤ 255 := by
  induction calls generalizing m with
  | nil => exact hm
  | cons c cs ih =>
    exact ih _ (fun j hj => update_lumamap_bound c.vram c.luma_decay c.luma_inc m j hj)

/-- C1: one `ssd1306_gl_update_lumamap(ssd1306, d, i)` call updates every
one of the W*H luminance cells exactly once: the new value at the cell of
pixel `(col, page*8 + bit)` — bit 0 of a page byte being the topmost row
of the page — is `clamp(old - d + (bit set ? i : 0), 0, 255)` of that
cell's value before the call. -/
theorem lumamap_cell_update_formula (vram : Nat → Nat → Nat) (d i : Nat) (m : Nat → Nat)
    (page col bit : Nat) (hp : page < 8) (hc : col < 128) (hb : bit < 8) :
    ssd1306_gl_update_lumamap vram d i m ((page * 8 + bit) * OLED_WIDTH + col)
      = clampLuma ((m ((page * 8 + bit) * OLED_WIDTH + col) : Int) - (d : Int)
          + (if Nat.testBit (vram page col) bit then (i : Int) else 0)) :=
  ssd1306_gl_update_lumamap_cell vram d i m page col bit hp hc hb

/-- Witness for C1: page 0, column 3, bit 5 of the byte 32 (bit 5 set). -/
theorem lumamap_cell_update_formula_witness :
    ssd1306_gl_update_lumamap (fun _ _ => 32) 7 9 (fun _ => 100)
        ((0 * 8 + 5) * OLED_WIDTH + 3)
      = clampLuma ((100 : Int) - (7 : Int)
          + (if Nat.testBit 32 5 then (9 : Int) else 0)) :=
  lumamap_cell_update_formula (fun _ _ => 32) 7 9 (fun _ => 100) 0 3 5
    (by decide) (by decide) (by decide)

/-- C2: starting from the zero-initialized luminance map, after any
sequence of `ssd1306_gl_update_lumamap` calls with arbitrary frames,
decays and increments, every cell is at most 255 (values are `Nat`, so
also at least 0): the update saturates and never wraps. -/
theorem lumamap_saturation (calls : List IntegrateCall) (j : Nat)
    (hj : j < OLED_WIDTH * OLED_HEIGHT) :
    runIntegrateCalls calls zeroLumaPixmap j ≤ 255 :=
  runIntegrateCalls_bound calls zeroLumaPixmap
    (fun _ _ => by simp [zeroLumaPixmap]) j hj

/-- Witness for C2: two calls, max increment then decay, at cell 0. -/
theorem lumamap_saturation_witness :
    runIntegrateCalls [⟨fun _ _ => 255, 0, 255⟩, ⟨fun _ _ => 0, 3, 0⟩]
      zeroLumaPixmap 0 ≤ 255 :=
  lumamap_saturation [⟨fun _ _ => 255, 0, 255⟩, ⟨fun _ _ => 0, 3, 0⟩] 0 (by decide)

/-! ### Decay-only convergence -/

theorem decay_iter_cell (d k j : Nat) (hj : j < OLED_WIDTH * OLED_HEIGHT) :
    ∀ m : Nat → Nat, m j ≤ 255 →
      (ssd1306_gl_update_lumamap zeroVram d 0)^[k] m j = m j - k * d := by
  induction k with
  | zero => intro m _; simp
  | succ k ih =>
    intro m hm
    have hstep : ssd1306_gl_update_lumamap zeroVram d 0 m j = m j - d := by
      obtain ⟨p, c, b, hp, hc, hb, rfl⟩ := index_decomp j hj
      rw [ssd1306_gl_update_lumamap_cell zeroVram d 0 m p c b hp hc hb]
      simp only [zeroVram, Nat.zero_testBit, lumaStep, clampLuma, if_false]
      split_ifs <;> omega
    have hle : ssd1306_gl_update_lumamap zeroVram d 0 m j ≤ 255 := by
      rw [hstep]; omega
    rw [Function.iterate_succ_apply, ih _ hle, hstep, Nat.sub_sub, Nat.succ_mul,
      Nat.add_comm]

theorem ceil_mul_ge (d : Nat) (hd : 0 < d) : 255 ≤ (255 + d - 1) / d * d := by
  have h1 := Nat.div_add_mod (255 + d - 1) d
  have h2 : (255 + d - 1) % d < d := Nat.mod_lt _ hd
  rw [Nat.mul_comm]
  omega

/-- C7: with an all-zero frame, increment 0 and decay d > 0, starting
from any map with every cell in [0,255], every cell is 0 after
ceil(255/d) = (255+d-1)/d calls (and after any later call), and a cell
already at 0 stays at 0 through every number of calls. -/
theorem decay_only_convergence (d k j : Nat) (m : Nat → Nat) (hd : 0 < d)
    (hm : ∀ j', j' < OLED_WIDTH * OLED_HEIGHT → m j' ≤ 255)
    (hk : (255 + d - 1) / d ≤ k) (hj : j < OLED_WIDTH * OLED_HEIGHT) :
    (ssd1306_gl_update_lumamap zeroVram d 0)^[k] m j = 0
      ∧ (m j = 0 →
          ∀ k', (ssd1306_gl_update_lumamap zeroVram d 0)^[k'] m j = 0) := by
  constructor
  · rw [decay_iter_cell d k j hj m (hm j hj)]
    have h1 := ceil_mul_ge d hd
    have h2 : (255 + d - 1) / d * d ≤ k * d := Nat.mul_le_mul_right d hk
    have h3 := hm j hj
    omega
  · intro h0 k'
    rw [decay_iter_cell d k' j hj m (hm j hj), h0]
    simp

/-- Witness for C7: decay 255 clears a 200-valued cell in one call. -/
theorem decay_only_convergence_witness :
    (ssd1306_gl_update_lumamap zeroVram 255 0)^[1] (fun _ => 200) 0 = 0
      ∧ ((200 : Nat) = 0 →
          ∀ k', (ssd1306_gl_update_lumamap zeroVram 255 0)^[k'] (fun _ => 200) 0 = 0) :=
  decay_only_convergence 255 1 0 (fun _ => 200) (by decide)
    (fun _ _ => by show (200 : Nat) ≤ 255; decide) (by decide) (by decide)

/-! ### Geometry claim theorems -/

theorem scaled_geometry_fields (w h : Int) :
    scaled_geometry w h =
      { scale := display_scale w h
        offset_x := Int.tdiv (w - 128 * display_scale w h) 2
        offset_y := Int.tdiv (h - 64 * display_scale w h) 2
        canvas_width := 128 * display_scale w h
        canvas_height := 64 * display_scale w h } := by
  simp only [scaled_geometry, OLED_WIDTH, OLED_HEIGHT, Nat.cast_ofNat]

/-- C3: before the capacity guard, the geometry is
`scale = min(floor(h/64), floor(w/128))` clamped to a minimum of 1,
canvas `128*scale x 64*scale`, and centered offsets
`(w - 128*scale)/2`, `(h - 64*scale)/2` by integer division (possibly
negative); in particular surface 384x168 yields the full result
scale 2, canvas 256x128, offsets (64, 20). -/
theorem display_geometry_formula (w h : Int) :
    ((scaled_geometry w h).scale
        = max 1 (min (Int.fdiv h 64) (Int.fdiv w 128))
      ∧ (scaled_geometry w h).canvas_width = 128 * (scaled_geometry w h).scale
      ∧ (scaled_geometry w h).canvas_height = 64 * (scaled_geometry w h).scale
      ∧ (scaled_geometry w h).offset_x
          = Int.tdiv (w - 128 * (scaled_geometry w h).scale) 2
      ∧ (scaled_geometry w h).offset_y
          = Int.tdiv (h - 64 * (scaled_geometry w h).scale) 2)
    ∧ calculate_display_scaling 384 168
        = { scale := 2, offset_x := 64, offset_y := 20,
            canvas_width := 256, canvas_height := 128 } := by
  refine ⟨⟨?_, ?_, ?_, ?_, ?_⟩, by decide⟩ <;>
    rw [scaled_geometry_fields] <;>
    simp [display_scale_eq_spec, spec_scale, OLED_WIDTH, OLED_HEIGHT, Nat.cast_ofNat]

/-- C4: whenever the pre-guard canvas area exceeds `MAX_CANVAS_SIZE`,
`calculate_display_scaling` falls back to scale 1 with centering
recomputed for the unscaled 128x64 size; consequently the final canvas
area never exceeds the buffer capacity. -/
theorem display_capacity_guard (w h : Int) :
    ((scaled_geometry w h).canvas_width * (scaled_geometry w h).canvas_height
        > (MAX_CANVAS_SIZE : Int) →
      calculate_display_scaling w h =
        { scale := 1
          offset_x := Int.tdiv (w - 128) 2
          offset_y := Int.tdiv (h - 64) 2
          canvas_width := 128
          canvas_height := 64 })
    ∧ (calculate_display_scaling w h).canvas_width
        * (calculate_display_scaling w h).canvas_height
        ≤ (MAX_CANVAS_SIZE : Int) := by
  constructor
  · intro hgt
    simp only [calculate_display_scaling]
    rw [if_pos hgt]
    rfl
  · simp only [calculate_display_scaling]
    split_ifs with hgt
    · show (OLED_WIDTH : Int) * (OLED_HEIGHT : Int) ≤ (MAX_CANVAS_SIZE : Int)
      decide
    · exact not_lt.mp hgt

/-- Witness for C4: a 1000x1000 surface computes scale 7 (canvas
896x448, area 401408 > 65536) and must fall back to scale 1. -/
theorem display_capacity_guard_witness :
    calculate_display_scaling 1000 1000 =
        { scale := 1
          offset_x := Int.tdiv (1000 - 128) 2
          offset_y := Int.tdiv (1000 - 64) 2
          canvas_width := 128
          canvas_height := 64 }
      ∧ (calculate_display_scaling 1000 1000).canvas_width
          * (calculate_display_scaling 1000 1000).canvas_height
          ≤ (MAX_CANVAS_SIZE : Int) :=
  ⟨(display_capacity_guard 1000 1000).1 (by decide),
   (display_capacity_guard 1000 1000).2⟩

/-- C9: with W=128, H=64 and MAX_CANVAS_SIZE = 128*64*8, the final scale
is always 1 or 2: any pre-guard scale of 3 or more has canvas area
128*64*scale^2 > MAX_CANVAS_SIZE and trips the fallback to scale 1. -/
theorem final_scale_one_or_two (w h : Int) :
    ((calculate_display_scaling w h).scale = 1
      ∨ (calculate_display_scaling w h).scale = 2)
    ∧ (3 ≤ (scaled_geometry w h).scale →
        (calculate_display_scaling w h).scale = 1) := by
  have h1 : 1 ≤ display_scale w h := display_scale_pos w h
  simp only [calculate_display_scaling]
  split_ifs with hgt
  · exact ⟨Or.inl rfl, fun _ => rfl⟩
  · rw [scaled_geometry_fields] at hgt ⊢
    simp only [not_lt] at hgt
    have hle : 128 * display_scale w h * (64 * display_scale w h)
        ≤ (MAX_CANVAS_SIZE : Int) := hgt
    have hs2 : display_scale w h ≤ 2 := by
      by_contra hs
      push_neg at hs
      have h3 : (3 : Int) ≤ display_scale w h := hs
      have hmul : (384 : Int) * 192
          ≤ 128 * display_scale w h * (64 * display_scale w h) := by
        apply mul_le_mul (by linarith) (by linarith) (by linarith) (by linarith)
      have hcap : ((MAX_CANVAS_SIZE : Nat) : Int) = 65536 := by decide
      rw [hcap] at hle
      linarith
    constructor
    · simp only [DisplayGeometry.mk.injEq]
      omega
    · intro h3
      simp only at h3
      omega

/-- Witness for C9: a 2000x2000 surface (pre-guard scale 15) ends at
scale 1. -/
theorem final_scale_one_or_two_witness :
    ((calculate_display_scaling 2000 2000).scale = 1
      ∨ (calculate_display_scaling 2000 2000).scale = 2)
    ∧ (calculate_display_scaling 2000 2000).scale = 1 :=
  ⟨(final_scale_one_or_two 2000 2000).1,
   (final_scale_one_or_two 2000 2000).2 (by decide)⟩

/-! ### Input claim theorems -/

theorem key_to_button_e_lt (key : Nat) : key_to_button_e key < 6 := by
  unfold key_to_button_e
  split_ifs <;> decide

/-- C5: for a mapped key code, the first delivery while the button is
released emits exactly one press signal and marks the button pressed;
any delivery while the button is pressed emits nothing and changes
nothing (the whole result state is unchanged). -/
theorem press_debounce_idempotent (s : InputState) (key : Nat)
    (hmap : 0 ≤ key_to_button_e key)
    (hrel : s.key_states (key_to_button_e key).toNat = false) :
    (lv_arduboy_emu_app_handle_input s key).signals
        = [((key_to_button_e key).toNat, true)]
    ∧ (lv_arduboy_emu_app_handle_input s key).state.key_states
        (key_to_button_e key).toNat = true
    ∧ ∀ t : InputState, t.key_states (key_to_button_e key).toNat = true →
        lv_arduboy_emu_app_handle_input t key
          = { state := t, signals := [], timer_ops := [] } := by
  have hlt : key_to_button_e key < (BUTTON_COUNT : Int) := by
    have := key_to_button_e_lt key
    simpa [BUTTON_COUNT] using this
  have hcond : 0 ≤ key_to_button_e key
      ∧ key_to_button_e key < (BUTTON_COUNT : Int) := ⟨hmap, hlt⟩
  refine ⟨?_, ?_, ?_⟩
  · simp only [lv_arduboy_emu_app_handle_input]
    rw [if_pos hcond, if_pos hrel]
  · simp only [lv_arduboy_emu_app_handle_input]
    rw [if_pos hcond, if_pos hrel]
    simp
  · intro t ht
    simp only [lv_arduboy_emu_app_handle_input]
    rw [if_pos hcond, if_neg (by simp [ht])]

/-- Witness for C5: key 17 (Up) pressed from the initial state. -/
theorem press_debounce_idempotent_witness :
    (lv_arduboy_emu_app_handle_input initialInputState 17).signals = [(0, true)]
    ∧ (lv_arduboy_emu_app_handle_input initialInputState 17).state.key_states 0
        = true :=
  ⟨(press_debounce_idempotent initialInputState 17 (by decide) (by decide)).1,
   (press_debounce_idempotent initialInputState 17 (by decide) (by decide)).2.1⟩

/-- C8: a key code outside the lookup table maps to -1 and the input
handler is a complete no-op: state unchanged, no button event, no timer
operation. -/
theorem unmapped_key_noop (s : InputState) (key : Nat)
    (h : key ∉ [KEY_UP, KEY_DOWN, KEY_LEFT, KEY_RIGHT, KEY_ENTER, KEY_ESC,
      122, 120]) :
    key_to_button_e key = -1
    ∧ lv_arduboy_emu_app_handle_input s key
        = { state := s, signals := [], timer_ops := [] } := by
  simp only [List.mem_cons, List.mem_singleton, not_or] at h
  obtain ⟨h1, h2, h3, h4, h5, h6, h7, h8⟩ := h
  have hm : key_to_button_e key = -1 := by
    unfold key_to_button_e
    split_ifs <;> tauto
  refine ⟨hm, ?_⟩
  simp only [lv_arduboy_emu_app_handle_input, hm]
  rw [if_neg (by decide)]

/-- Witness for C8: key code 42 from the initial state. -/
theorem unmapped_key_noop_witness :
    key_to_button_e 42 = -1
    ∧ lv_arduboy_emu_app_handle_input initialInputState 42
        = { state := initialInputState, signals := [], timer_ops := [] } :=
  unmapped_key_noop initialInputState 42 (by decide)

/-! ### Timer-callback characterization -/

theorem releaseStep_fold_state (l : List Nat) (st : InputState)
    (out : List (Nat × Bool)) (j : Nat) :
    (l.foldl releaseStep (st, out)).1.key_states j
      = if j ∈ l then false else st.key_states j := by
  induction l generalizing st out with
  | nil => simp
  | cons i l' ih =>
    rw [List.foldl_cons]
    by_cases hk : st.key_states i
    · have hstep : releaseStep (st, out) i
          = ({ key_states := fun j => if j = i then false else st.key_states j
               timer_created := st.timer_created }, out ++ [(i, false)]) := by
        simp [releaseStep, hk]
      rw [hstep, ih]
      by_cases hj : j ∈ l'
      · simp [hj]
      · by_cases hji : j = i
        · simp [hj, hji]
        · simp [hj, hji]
    · have hstep : releaseStep (st, out) i = (st, out) := by
        simp [releaseStep, hk]
      rw [hstep, ih]
      by_cases hj : j ∈ l'
      · simp [hj]
      · by_cases hji : j = i
        · subst hji
          simp only [Bool.not_eq_true] at hk
          simp [hj, hk]
        · simp [hj, hji]

theorem releaseStep_fold_signals (l : List Nat) (hl : l.Nodup) (st : InputState)
    (out : List (Nat × Bool)) :
    (l.foldl releaseStep (st, out)).2
      = out ++ l.filterMap
          (fun i => if st.key_states i then some (i, false) else none) := by
  induction l generalizing st out with
  | nil => simp
  | cons i l' ih =>
    have hni : i ∉ l' := (List.nodup_cons.mp hl).1
    have hnd : l'.Nodup := (List.nodup_cons.mp hl).2
    rw [List.foldl_cons, List.filterMap_cons]
    by_cases hk : st.key_states i
    · have hstep : releaseStep (st, out) i
          = ({ key_states := fun j => if j = i then false else st.key_states j
               timer_created := st.timer_created }, out ++ [(i, false)]) := by
        simp [releaseStep, hk]
      rw [hstep, ih hnd]
      have hcong : l'.filterMap
            (fun a => if (if a = i then false else st.key_states a) = true
              then some (a, false) else none)
          = l'.filterMap
            (fun a => if st.key_states a then some (a, false) else none) := by
        apply List.filterMap_congr
        intro a ha
        have : a ≠ i := fun hai => hni (hai ▸ ha)
        simp [this]
      simp only [hcong, hk, if_true]
      simp
    · have hstep : releaseStep (st, out) i = (st, out) := by
        simp [releaseStep, hk]
      rw [hstep, ih hnd]
      simp [hk]

/-- C6: release signals come only from the quiescence-timer callback:
`key_release_timer_cb` emits `(i, false)` exactly for the buttons
currently pressed and sets every button to released; and the key-event
handler `lv_arduboy_emu_app_handle_input` never emits a release
(every signal it emits is a press). -/
theorem release_only_from_timer (s : InputState) :
    (∀ i, i < BUTTON_COUNT →
      ((key_release_timer_cb s).1.key_states i = false
        ∧ ((i, false) ∈ (key_release_timer_cb s).2 ↔ s.key_states i = true)))
    ∧ (∀ (t : InputState) (key : Nat),
        ∀ sig ∈ (lv_arduboy_emu_app_handle_input t key).signals, sig.2 = true) := by
  constructor
  · intro i hi
    unfold key_release_timer_cb
    constructor
    · rw [releaseStep_fold_state]
      simp [List.mem_range, hi]
    · rw [releaseStep_fold_signals _ (List.nodup_range _)]
      simp only [List.nil_append, List.mem_filterMap, List.mem_range]
      constructor
      · rintro ⟨a, _, hfa⟩
        by_cases hka : s.key_states a
        · simp only [hka, if_true, Option.some.injEq, Prod.mk.injEq] at hfa
          obtain ⟨rfl, -⟩ := hfa
          exact hka
        · simp [hka] at hfa
      · intro hki
        exact ⟨i, hi, by simp [hki]⟩
  · intro t key sig hsig
    unfold lv_arduboy_emu_app_handle_input at hsig
    by_cases hc : 0 ≤ key_to_button_e key
        ∧ key_to_button_e key < (BUTTON_COUNT : Int)
    · rw [if_pos hc] at hsig
      by_cases hr : t.key_states (key_to_button_e key).toNat = false
      · rw [if_pos hr] at hsig
        simp only [List.mem_singleton] at hsig
        rw [hsig]
      · rw [if_neg hr] at hsig
        simp at hsig
    · rw [if_neg hc] at hsig
      simp at hsig

/-- Witness for C6: all buttons pressed; button 0 is cleared and its
release signal is present. -/
theorem release_only_from_timer_witness :
    (key_release_timer_cb
        { key_states := fun _ => true, timer_created := true }).1.key_states 0 = false
    ∧ ((0, false) ∈ (key_release_timer_cb
          { key_states := fun _ => true, timer_created := true }).2
        ↔ true = true) :=
  (release_only_from_timer
    { key_states := fun _ => true, timer_created := true }).1 0 (by decide)

/-! ### Render guard -/

/-- C10: `ssd1306_gl_render` called when the engine is not initialized,
or when the canvas is absent, returns immediately and leaves the
destination surface completely unchanged. -/
theorem render_uninitialized_noop (ctx : RenderCtx) (surface : Surface)
    (h : ctx.initialized = false ∨ ctx.has_canvas = false) :
    ssd1306_gl_render ctx surface = surface := by
  simp only [ssd1306_gl_render]
  rw [if_pos h]

/-- Witness for C10: a non-initialized context with a live canvas and a
non-trivial surface. -/
theorem render_uninitialized_noop_witness :
    ssd1306_gl_render
        { has_canvas := true, scale := 2, luma_pixmap := fun _ => 255,
          initialized := false }
        (fun x y => (x, y, 7))
      = fun x y => (x, y, 7) :=
  render_uninitialized_noop
    { has_canvas := true, scale := 2, luma_pixmap := fun _ => 255,
      initialized := false }
    (fun x y => (x, y, 7)) (Or.inl rfl)
